import Mathlib

/-!
Verification of the CarbuGo station-map core: a shallow embedding of the
client-side clustering, bounds filtering, sorting/filtering and price-tier
logic, together with theorems checking the specification's claims.

Conventions of the embedding:
* JavaScript numbers are modelled as exact rationals.
* Nullable prices are modelled as `Option ℚ`; the JavaScript falsiness test
  `!price` (true for `null`, `undefined` and `0`) is `jsFalsy`.
* Arrays are lists; a JS `Set` of ids is a duplicate-free `List String`.
-/

/-- A fuel-station record, from `shared/schema.ts` (`stations` table):
id, display strings, WGS-84 coordinates and six nullable prices. -/
structure Station where
  id : String
  nom : String
  adresse : String
  ville : String
  lat : ℚ
  lon : ℚ
  prixGazole : Option ℚ := none
  prixSP95 : Option ℚ := none
  prixSP98 : Option ℚ := none
  prixE10 : Option ℚ := none
  prixE85 : Option ℚ := none
  prixGPLc : Option ℚ := none
  deriving DecidableEq, Repr

/-- A map viewport, `{north, south, east, west}`. -/
structure Bounds where
  north : ℚ
  south : ℚ
  east : ℚ
  west : ℚ
  deriving DecidableEq, Repr

/-- JavaScript falsiness of a nullable number: `!p` is `true` exactly when
`p` is `null`/`undefined` or equal to `0`. -/
def jsFalsy (p : Option ℚ) : Bool :=
  match p with
  | none => true
  | some x => x == 0

/-- JavaScript `p || d` on a nullable number: a falsy `p` is replaced by `d`. -/
def jsOr (p : Option ℚ) (d : ℚ) : ℚ :=
  if jsFalsy p then d else p.getD 0

/-- The bounds test of `station-cluster.tsx` (`visibleStations`) and of
`MemStorage.getStationsInBounds` in `server/storage.ts`:
`lat >= south && lat <= north && lon >= west && lon <= east`. -/
def inBounds (b : Bounds) (s : Station) : Bool :=
  decide (b.south ≤ s.lat) && decide (s.lat ≤ b.north) &&
  decide (b.west ≤ s.lon) && decide (s.lon ≤ b.east)

/-- `filterInBounds(stations, bounds)`: keep the stations inside the viewport. -/
def filterInBounds (stations : List Station) (b : Bounds) : List Station :=
  stations.filter (inBounds b)

/-- A cluster produced by one clustering pass (`ClusterGroup` in
`station-cluster.tsx`): member stations plus the centroid coordinates. -/
structure ClusterGroup where
  stations : List Station
  lat : ℚ
  lng : ℚ
  deriving DecidableEq, Repr

/-- `const shouldCluster = zoom < 12` (`station-cluster.tsx` line 46). -/
def shouldCluster (zoom : ℚ) : Bool :=
  decide (zoom < 12)

/-- `const clusterDistance = zoom < 8 ? 0.05 : zoom < 10 ? 0.02 : 0.01`. -/
def clusterDistance (zoom : ℚ) : ℚ :=
  if zoom < 8 then 0.05 else if zoom < 10 then 0.02 else 0.01

/-- Squared planar distance on raw degree differences. The source compares
`Math.sqrt(dLat^2 + dLon^2) <= clusterDistance`; squaring both sides of that
comparison (the threshold is nonnegative) keeps the embedding rational. -/
def planarDistSq (a b : Station) : ℚ :=
  (a.lat - b.lat) ^ 2 + (a.lon - b.lon) ^ 2

/-- The neighbour predicate of the clustering pass: not yet processed, a
different id, and within `clusterDistance` of the seed. -/
def isNearby (processed : List String) (station other : Station) (cd : ℚ) : Bool :=
  !(processed.contains other.id) && !(other.id == station.id) &&
  decide (planarDistSq station other ≤ cd ^ 2)

/-- The mutable state of the clustering loop: clusters built so far, the set
of processed station ids, and the singleton stations so far. -/
structure ClusterState where
  clustered : List ClusterGroup
  processed : List String
  singles : List Station
  deriving Repr

/-- The `visibleStations.filter` of lines 62-71: the unassigned stations
within clustering distance of the seed. -/
def nearbyOf (visible : List Station) (cd : ℚ) (processed : List String)
    (station : Station) : List Station :=
  visible.filter (fun other => isNearby processed station other cd)

/-- Lines 75-83: a cluster from its member list, with the centroid taken as
the arithmetic mean of the member coordinates. -/
def mkCluster (members : List Station) : ClusterGroup :=
  ⟨members, (members.map Station.lat).sum / (members.length : ℚ),
    (members.map Station.lon).sum / (members.length : ℚ)⟩

/-- One iteration of the `visibleStations.forEach` loop in
`station-cluster.tsx` lines 58-92: skip processed stations; otherwise gather
unassigned neighbours, and either build a cluster (seed plus neighbours, with
arithmetic-mean centroid) or record the seed as a singleton. -/
def clusterStep (visible : List Station) (cd : ℚ) (st : ClusterState)
    (station : Station) : ClusterState :=
  if st.processed.contains station.id then st
  else
    let nearby := nearbyOf visible cd st.processed station
    if nearby.length > 0 then
      { st with
        clustered := st.clustered ++ [mkCluster (station :: nearby)],
        processed := st.processed ++ (station :: nearby).map Station.id }
    else
      { st with
        processed := st.processed ++ [station.id],
        singles := st.singles ++ [station] }

/-- `computeClusters(stations, zoom)`: the clustering pass of
`station-cluster.tsx` lines 49-95, returning the cluster list and the
singleton list. When `zoom >= 12` clustering is disabled and all stations are
returned as singletons. -/
def computeClusters (visible : List Station) (zoom : ℚ) :
    List ClusterGroup × List Station :=
  if shouldCluster zoom then
    let st := visible.foldl (clusterStep visible (clusterDistance zoom)) ⟨[], [], []⟩
    (st.clustered, st.singles)
  else
    ([], visible)

/-- All stations that ended up as members of some cluster. -/
def clusterMembers (clusters : List ClusterGroup) : List Station :=
  clusters.flatMap ClusterGroup.stations

/-- All stations assigned by a clustering result: cluster members followed by
singletons. -/
def partitionMembers (r : List ClusterGroup × List Station) : List Station :=
  clusterMembers r.1 ++ r.2

/-- One step of the `stations.reduce` in `ClusterMarker`: a station with a
falsy diesel price never replaces the accumulator; it replaces a missing or
falsy-priced accumulator; otherwise a strictly lower price wins. -/
def cheaperStep (cheapest : Option Station) (station : Station) : Option Station :=
  if jsFalsy station.prixGazole then cheapest
  else
    match cheapest with
    | none => some station
    | some c =>
      if jsFalsy c.prixGazole then some station
      else if station.prixGazole.getD 0 < c.prixGazole.getD 0 then some station
      else some c

/-- `cheapestStation` of `ClusterMarker`: `stations.reduce(..., stations[0])`,
the member with the lowest non-falsy diesel price (first such member wins
ties, since only a strictly lower price replaces the accumulator). -/
def cheapestStation (stations : List Station) : Option Station :=
  stations.foldl cheaperStep stations.head?

/-- `PRICE_THRESHOLDS.LOW` from `lib/constants.ts`. -/
def PRICE_THRESHOLDS_LOW : ℚ := 1.65

/-- `PRICE_THRESHOLDS.HIGH` from `lib/constants.ts`. -/
def PRICE_THRESHOLDS_HIGH : ℚ := 1.80

/-- `getPriceColor` from `lib/utils.ts`: gray (unknown tier) for a falsy
price, success (low) below the LOW threshold, error (high) above the HIGH
threshold, warning (mid) otherwise. -/
def getPriceColor (price : Option ℚ) : String :=
  if jsFalsy price then "text-gray-500"
  else if price.getD 0 < PRICE_THRESHOLDS_LOW then "text-success"
  else if price.getD 0 > PRICE_THRESHOLDS_HIGH then "text-error"
  else "text-warning"

/-- `getPriceBadgeVariant` from `lib/utils.ts`. -/
def getPriceBadgeVariant (price : Option ℚ) : String :=
  if jsFalsy price then "secondary"
  else if price.getD 0 < PRICE_THRESHOLDS_LOW then "default"
  else if price.getD 0 > PRICE_THRESHOLDS_HIGH then "destructive"
  else "secondary"

/-- Left-pad a fractional part below 1000 to three digits. -/
def padThree (n : ℕ) : String :=
  if n < 10 then "00" ++ toString n
  else if n < 100 then "0" ++ toString n
  else toString n

/-- `Number.prototype.toFixed(3)` on a finite value: choose the integer `n`
with `n / 1000` closest to the value, the larger `n` on ties, and print it
with exactly three fractional digits. -/
def toFixedThree (q : ℚ) : String :=
  let n := ⌊q * 1000 + 1 / 2⌋
  let m := n.natAbs
  (if n < 0 then "-" else "") ++ toString (m / 1000) ++ "." ++ padThree (m % 1000)

/-- `formatPrice` from `lib/utils.ts` and `station-list-panel.tsx`:
`price ? price.toFixed(3) + " €/L" : "N/A"`. -/
def formatPrice (price : Option ℚ) : String :=
  if jsFalsy price then "N/A"
  else toFixedThree (price.getD 0) ++ " €/L"

/-- The fuel selector of the list panel (`FuelType` in
`station-list-panel.tsx`). -/
inductive FuelType where
  | all
  | gazole
  | sp95
  | sp98
  | e10
  | e85
  | gplc
  deriving DecidableEq, Repr

/-- `getPriceForFuelType` from `station-list-panel.tsx` lines 102-112; the
default branch (used for `"all"`) yields the diesel price. -/
def getPriceForFuelType (s : Station) (f : FuelType) : Option ℚ :=
  match f with
  | FuelType.gazole => s.prixGazole
  | FuelType.sp95 => s.prixSP95
  | FuelType.sp98 => s.prixSP98
  | FuelType.e10 => s.prixE10
  | FuelType.e85 => s.prixE85
  | FuelType.gplc => s.prixGPLc
  | FuelType.all => s.prixGazole

/-- Sort criterion of the list panel. -/
inductive SortBy where
  | price
  | distance
  | name
  deriving DecidableEq, Repr

/-- Sort direction of the list panel. -/
inductive SortOrder where
  | asc
  | desc
  deriving DecidableEq, Repr

/-- A user location, `{lat, lon}`. -/
structure Coord where
  lat : ℚ
  lon : ℚ
  deriving DecidableEq, Repr

/-- A station augmented with its (nullable) distance to the user, as produced
by the `stations.map` at the head of `filteredAndSortedStations`. -/
structure StationWithDistance where
  station : Station
  distance : Option ℚ
  deriving DecidableEq, Repr

/-- The distance-annotation step of `filteredAndSortedStations`:
`distance: userLocation ? calculateDistance(...) : null`. The Haversine
distance itself involves transcendental functions, so it is a parameter
`dist` of the embedding; none of the verified claims depends on its values. -/
def withDistance (dist : Coord → Station → ℚ) (userLocation : Option Coord)
    (stations : List Station) : List StationWithDistance :=
  stations.map (fun s => ⟨s, userLocation.map (fun u => dist u s)⟩)

/-- The fuel-filter step of `filteredAndSortedStations` lines 59-65: when a
specific fuel is selected, keep exactly the stations whose price for that
fuel is neither `null` nor `undefined`. -/
def applyFuelFilter (f : FuelType) (l : List StationWithDistance) :
    List StationWithDistance :=
  if f == FuelType.all then l
  else l.filter (fun sd => (getPriceForFuelType sd.station f).isSome)

/-- The ascending price sort key: `fuelFilter === "all" ? (a.prixGazole || 999)
: (getPriceForFuelType(a, fuelFilter) || 999)`. A falsy price becomes the
sentinel 999. -/
def priceSortKey (f : FuelType) (s : Station) : ℚ :=
  if f == FuelType.all then jsOr s.prixGazole 999
  else jsOr (getPriceForFuelType s f) 999

/-- Sign of `a.nom.localeCompare(b.nom)`, modelled as code-point string
comparison (locale collation tables are outside the embedding; the verified
claims use only that this is some fixed comparator). -/
def compareNom (a b : Station) : ℚ :=
  match compare a.nom b.nom with
  | Ordering.lt => -1
  | Ordering.eq => 0
  | Ordering.gt => 1

/-- The comparator passed to `.sort` in `filteredAndSortedStations` lines
67-86. Note that in the `distance` case a falsy distance on either side
returns `0` directly, before the `sortOrder` sign flip. -/
def stationComparator (sb : SortBy) (ord : SortOrder) (f : FuelType)
    (a b : StationWithDistance) : ℚ :=
  match sb with
  | SortBy.price =>
    let comparison := priceSortKey f a.station - priceSortKey f b.station
    if ord == SortOrder.asc then comparison else -comparison
  | SortBy.distance =>
    if jsFalsy a.distance || jsFalsy b.distance then 0
    else
      let comparison := a.distance.getD 0 - b.distance.getD 0
      if ord == SortOrder.asc then comparison else -comparison
  | SortBy.name =>
    let comparison := compareNom a.station b.station
    if ord == SortOrder.asc then comparison else -comparison

/-- The `.sort(comparator)` call, modelled as the stable merge sort mandated
for `Array.prototype.sort`: an element precedes another when the comparator
is nonpositive on the pair. -/
def sortStations (sb : SortBy) (ord : SortOrder) (f : FuelType)
    (l : List StationWithDistance) : List StationWithDistance :=
  l.mergeSort (fun a b => decide (stationComparator sb ord f a b ≤ 0))

/-- `filteredAndSortedStations` from `station-list-panel.tsx` lines 51-87:
annotate with distances, apply the fuel filter, then sort. -/
def filteredAndSortedStations (dist : Coord → Station → ℚ)
    (stations : List Station) (userLocation : Option Coord)
    (sb : SortBy) (ord : SortOrder) (f : FuelType) : List StationWithDistance :=
  sortStations sb ord f (applyFuelFilter f (withDistance dist userLocation stations))

/-- `toggleFavorite` from `hooks/use-favorites.ts` lines 31-39: copy the
favorites set, then delete the id if present, otherwise add it. -/
def toggleFavorite (favorites : Finset String) (stationId : String) :
    Finset String :=
  if stationId ∈ favorites then favorites.erase stationId
  else insert stationId favorites

/-- A raw viewport-change event: its time (ms) and the bounds it recorded. -/
structure VpEvent where
  t : ℚ
  bounds : Bounds
  deriving DecidableEq, Repr

/-- Modelled from the spec: the `useDebounce` hook (imported by
`optimized-map-container.tsx` from `client/src/hooks/use-debounce.ts`, a file
absent from the sources). Per spec section 4.4, each event restarts a timer
of length `w`; a pending fetch is cancelled when a new event arrives before
the window elapses. Given the time-ordered event list, this returns each
fetch that fires: at time `t + w` with the bounds of the event at `t`,
exactly when no later event arrives strictly before `t + w`. -/
def debouncedFetches (w : ℚ) : List VpEvent → List (ℚ × Bounds)
  | [] => []
  | e :: rest =>
    match rest with
    | [] => [(e.t + w, e.bounds)]
    | e' :: _ =>
      if e'.t < e.t + w then debouncedFetches w rest
      else (e.t + w, e.bounds) :: debouncedFetches w rest

/-- C2: for every station list `S` and zoom `z ≥ 12`, the clustering pass
returns no clusters and all of `S` as singletons in the original order. -/
theorem computeClusters_zoom_ge12 (S : List Station) (z : ℚ) (hz : 12 ≤ z) :
    computeClusters S z = ([], S) := by
  have h : shouldCluster z = false := decide_eq_false (not_lt.mpr hz)
  simp [computeClusters, h]

theorem computeClusters_zoom_ge12_witness :
    (12 : ℚ) ≤ 12 ∧ computeClusters [] 12 = ([], []) :=
  ⟨le_refl 12, computeClusters_zoom_ge12 [] 12 (le_refl 12)⟩

/-- C3: `filterInBounds` returns exactly the stations of `S` satisfying
`south ≤ lat ≤ north` and `west ≤ lon ≤ east`: it is a subsequence of `S`
(original order, no mutation of the input, which is a pure value here), its
members are characterised by the bounds test, and each retained station keeps
its multiplicity while excluded stations do not occur at all. -/
theorem filterInBounds_spec (S : List Station) (b : Bounds) :
    List.Sublist (filterInBounds S b) S ∧
    (∀ s : Station, s ∈ filterInBounds S b ↔
      s ∈ S ∧ b.south ≤ s.lat ∧ s.lat ≤ b.north ∧ b.west ≤ s.lon ∧ s.lon ≤ b.east) ∧
    (∀ s : Station, (filterInBounds S b).count s =
      if b.south ≤ s.lat ∧ s.lat ≤ b.north ∧ b.west ≤ s.lon ∧ s.lon ≤ b.east
      then S.count s else 0) := by
  refine ⟨List.filter_sublist S, ?_, ?_⟩
  · intro s
    simp [filterInBounds, List.mem_filter, inBounds, and_assoc]
  · intro s
    by_cases h : b.south ≤ s.lat ∧ s.lat ≤ b.north ∧ b.west ≤ s.lon ∧ s.lon ≤ b.east
    · rw [if_pos h]
      exact List.count_filter (by simpa [inBounds, and_assoc] using h)
    · rw [if_neg h, List.count_eq_zero]
      intro hmem
      have := (List.mem_filter.mp hmem).2
      simp only [inBounds, Bool.and_eq_true, decide_eq_true_eq] at this
      exact h ⟨this.1.1.1, this.1.1.2, this.1.2, this.2⟩

/-- The first initial station of `MemStorage.initializeStations`
(server storage), reused as concrete input for the end-to-end scenario. -/
def parisStationA : Station :=
  { id := "1", nom := "Total Access", adresse := "12 rue de la République",
    ville := "Paris", lat := 48.8566, lon := 2.3522,
    prixGazole := some 1.629, prixSP95 := some 1.729 }

/-- A second station 0.0001 degrees of longitude away. -/
def parisStationB : Station :=
  { id := "2", nom := "BP Station", adresse := "45 avenue des Champs",
    ville := "Paris", lat := 48.8566, lon := 2.3523,
    prixGazole := some 1.749 }

/-- C4: the end-to-end scenario: two stations at (48.8566, 2.3522) with
diesel 1.629 and (48.8566, 2.3523) with diesel 1.749, clustered at zoom 6
(clusterDistance 0.05), produce exactly one cluster of the two stations with
centroid (48.8566, 2.35225), and the representative (cheapest non-null
diesel) price of that cluster is 1.629. -/
theorem cluster_scenario_paris :
    computeClusters [parisStationA, parisStationB] 6 =
      ([⟨[parisStationA, parisStationB], 48.8566, 2.35225⟩], []) ∧
    ((computeClusters [parisStationA, parisStationB] 6).1.map
        (fun c => (cheapestStation c.stations).bind Station.prixGazole))
      = [some 1.629] := by
  have h : computeClusters [parisStationA, parisStationB] 6 =
      ([⟨[parisStationA, parisStationB], 48.8566, 2.35225⟩], []) := by
    simp only [computeClusters, shouldCluster, clusterDistance, List.foldl,
      clusterStep, nearbyOf, mkCluster, isNearby, planarDistSq, List.filter,
      parisStationA, parisStationB]
    norm_num
    simp
    norm_num
  refine ⟨h, ?_⟩
  rw [h]
  simp only [cheapestStation, cheaperStep, jsFalsy, List.foldl, List.head?,
    parisStationA, parisStationB, List.map]
  norm_num

/-- C5: the price-tier boundaries of `getPriceColor`: 1.65 and 1.80 are mid
tier (warning colour), 1.649 is low (success), 1.801 is high (error), and a
missing price is the unknown tier (gray). -/
theorem price_tier_boundaries :
    getPriceColor (some 1.65) = "text-warning" ∧
    getPriceColor (some 1.80) = "text-warning" ∧
    getPriceColor (some 1.649) = "text-success" ∧
    getPriceColor (some 1.801) = "text-error" ∧
    getPriceColor none = "text-gray-500" := by
  refine ⟨?_, ?_, ?_, ?_, rfl⟩ <;>
  · simp only [getPriceColor, jsFalsy, PRICE_THRESHOLDS_LOW,
      PRICE_THRESHOLDS_HIGH, Option.getD_some]
    norm_num

/-- C9: a price equal to 0 is treated exactly like a missing price by every
price-consuming operation: tier colour, badge variant, formatting (both give
"N/A") and the ascending price sort key (both give the 999 sentinel), because
each tests the price for JavaScript falsiness rather than for null. -/
theorem zero_price_treated_as_missing (s : Station) :
    getPriceColor (some 0) = getPriceColor none ∧
    getPriceColor (some 0) = "text-gray-500" ∧
    getPriceBadgeVariant (some 0) = getPriceBadgeVariant none ∧
    formatPrice (some 0) = "N/A" ∧
    formatPrice none = "N/A" ∧
    priceSortKey FuelType.all { s with prixGazole := some 0 } = 999 ∧
    priceSortKey FuelType.all { s with prixGazole := none } = 999 ∧
    priceSortKey FuelType.sp95 { s with prixSP95 := some 0 } = 999 ∧
    priceSortKey FuelType.sp95 { s with prixSP95 := none } = 999 := by
  refine ⟨rfl, rfl, rfl, rfl, rfl, ?_, ?_, ?_, ?_⟩ <;>
    simp [priceSortKey, jsOr, jsFalsy, getPriceForFuelType]

/-- C10: `toggleFavorite` removes a present id, adds an absent one, and is an
involution: toggling the same id twice restores the original favorites set. -/
theorem toggleFavorite_involutive (F : Finset String) (x : String) :
    (x ∈ F → toggleFavorite F x = F.erase x) ∧
    (x ∉ F → toggleFavorite F x = insert x F) ∧
    toggleFavorite (toggleFavorite F x) x = F := by
  refine ⟨fun h => by unfold toggleFavorite; rw [if_pos h],
    fun h => by unfold toggleFavorite; rw [if_neg h], ?_⟩
  unfold toggleFavorite
  by_cases h : x ∈ F
  · rw [if_pos h, if_neg (Finset.not_mem_erase x F), Finset.insert_erase h]
  · rw [if_neg h, if_pos (Finset.mem_insert_self x F), Finset.erase_insert h]

theorem toggleFavorite_involutive_witness :
    (("a" : String) ∈ ({"a"} : Finset String) →
      toggleFavorite {"a"} "a" = ({"a"} : Finset String).erase "a") ∧
    (("a" : String) ∉ ({"a"} : Finset String) →
      toggleFavorite {"a"} "a" = insert "a" ({"a"} : Finset String)) ∧
    toggleFavorite (toggleFavorite {"a"} "a") "a" = {"a"} :=
  toggleFavorite_involutive {"a"} "a"

/-- C7: for viewport-change events at t = 0, 100 and 150 ms under a 300 ms
debounce window, exactly one fetch is issued; it carries the bounds of the
t = 150 event and fires at t = 450 ≥ 150 + 300. -/
theorem debounce_three_events (b0 b1 b2 : Bounds) :
    debouncedFetches 300 [⟨0, b0⟩, ⟨100, b1⟩, ⟨150, b2⟩] = [(450, b2)] ∧
    (debouncedFetches 300 [⟨0, b0⟩, ⟨100, b1⟩, ⟨150, b2⟩]).length = 1 ∧
    (150 : ℚ) + 300 ≤ 450 := by
  refine ⟨?_, ?_, by norm_num⟩ <;> norm_num [debouncedFetches]

/-- C6: with a specific fuel selected (not "all"), every station of the
presented sequence has a price for that fuel: stations lacking one are
removed by the filter step, and the sort only permutes the remainder. -/
theorem fuelFilter_excludes_missing (dist : Coord → Station → ℚ)
    (S : List Station) (u : Option Coord) (sb : SortBy) (ord : SortOrder)
    (f : FuelType) (hf : f ≠ FuelType.all) :
    ∀ sd ∈ filteredAndSortedStations dist S u sb ord f,
      (getPriceForFuelType sd.station f).isSome := by
  intro sd hsd
  rw [filteredAndSortedStations, sortStations, List.mem_mergeSort] at hsd
  rw [applyFuelFilter, if_neg (by simpa using hf)] at hsd
  exact (List.mem_filter.mp hsd).2

theorem fuelFilter_excludes_missing_witness :
    FuelType.sp95 ≠ FuelType.all ∧
    ∀ sd ∈ filteredAndSortedStations (fun _ _ => 0)
        [parisStationA, parisStationB] none SortBy.price SortOrder.asc
        FuelType.sp95,
      (getPriceForFuelType sd.station FuelType.sp95).isSome :=
  ⟨by decide,
    fuelFilter_excludes_missing (fun _ _ => 0) [parisStationA, parisStationB]
      none SortBy.price SortOrder.asc FuelType.sp95 (by decide)⟩

/-- Helper for C8: with no user location every annotated distance is null, so
every distance comparison returns 0 and the stable sort leaves the filtered
list unchanged. -/
theorem sortStations_distance_no_location (dist : Coord → Station → ℚ)
    (S : List Station) (ord : SortOrder) (f : FuelType) :
    sortStations SortBy.distance ord f (applyFuelFilter f (withDistance dist none S))
      = applyFuelFilter f (withDistance dist none S) := by
  have hnone : ∀ sd ∈ applyFuelFilter f (withDistance dist none S),
      sd.distance = none := by
    intro sd hsd
    have hsd' : sd ∈ withDistance dist none S := by
      rw [applyFuelFilter] at hsd
      split at hsd
      · exact hsd
      · exact (List.mem_filter.mp hsd).1
    rw [withDistance] at hsd'
    obtain ⟨s, -, rfl⟩ := List.mem_map.mp hsd'
    rfl
  apply List.mergeSort_of_sorted
  apply List.pairwise_of_forall_mem_list
  intro a ha b hb
  simp [stationComparator, jsFalsy, hnone a ha]

/-- C8: presenting sorted by distance with no user location neither errors
(the embedding is total) nor reorders: the sort step is the identity, so the
output is the fuel-filtered input in its original order, and with the "all"
filter it is exactly the input station list. -/
theorem distance_sort_without_location (dist : Coord → Station → ℚ)
    (S : List Station) (ord : SortOrder) (f : FuelType) :
    filteredAndSortedStations dist S none SortBy.distance ord f
      = applyFuelFilter f (withDistance dist none S) ∧
    (filteredAndSortedStations dist S none SortBy.distance ord FuelType.all).map
        StationWithDistance.station = S := by
  refine ⟨sortStations_distance_no_location dist S ord f, ?_⟩
  rw [filteredAndSortedStations, sortStations_distance_no_location dist S ord FuelType.all]
  simp [applyFuelFilter, withDistance, List.map_map, Function.comp_def]

/-- Membership form of the boolean `List.contains` on id lists. -/
theorem contains_eq_true_iff (l : List String) (x : String) :
    l.contains x = true ↔ x ∈ l := by
  simp

/-- What a successful neighbour test guarantees: the neighbour was
unprocessed and has a different id from the seed. -/
theorem isNearby_facts {processed : List String} {s o : Station} {cd : ℚ}
    (h : isNearby processed s o cd = true) :
    o.id ∉ processed ∧ o.id ≠ s.id := by
  simp only [isNearby, Bool.and_eq_true, Bool.not_eq_true'] at h
  obtain ⟨⟨h1, h2⟩, -⟩ := h
  refine ⟨fun hm => ?_, by simpa using h2⟩
  rw [(contains_eq_true_iff _ _).mpr hm] at h1
  exact Bool.noConfusion h1

/-- A filter by the disjunction of two predicates that never hold together
splits, up to permutation, into the two separate filters. -/
theorem filter_or_perm {α : Type} (p q : α → Bool) (l : List α)
    (h : ∀ x ∈ l, ¬(p x = true ∧ q x = true)) :
    List.Perm (l.filter (fun x => p x || q x)) (l.filter p ++ l.filter q) := by
  induction l with
  | nil => simp
  | cons a l ih =>
    have ih' := ih (fun x hx => h x (List.mem_cons_of_mem a hx))
    cases hp : p a with
    | true =>
      have hq : q a = false := by
        cases hq' : q a with
        | false => rfl
        | true => exact absurd ⟨hp, hq'⟩ (h a (List.mem_cons_self a l))
      simp only [List.filter_cons, hp, hq, Bool.true_or, if_true, if_false,
        Bool.false_eq_true, List.cons_append]
      exact ih'.cons a
    | false =>
      cases hq : q a with
      | true =>
        simp only [List.filter_cons, hp, hq, Bool.false_or, if_true, if_false,
          Bool.false_eq_true]
        exact (ih'.cons a).trans List.perm_middle.symm
      | false =>
        simp only [List.filter_cons, hp, hq, Bool.false_or, if_false,
          Bool.false_eq_true]
        exact ih'

/-- In a list with duplicate-free ids, filtering by membership of the id in
the id list of a duplicate-free selection recovers exactly that selection,
up to permutation. -/
theorem filter_ids_perm (V A : List Station)
    (hV : (V.map Station.id).Nodup)
    (hsub : ∀ a ∈ A, a ∈ V)
    (hA : (A.map Station.id).Nodup) :
    List.Perm (V.filter (fun x => (A.map Station.id).contains x.id)) A := by
  have hVnd : V.Nodup := List.Nodup.of_map _ hV
  have hAnd : A.Nodup := List.Nodup.of_map _ hA
  rw [List.perm_ext_iff_of_nodup (hVnd.filter _) hAnd]
  intro x
  rw [List.mem_filter]
  constructor
  · rintro ⟨hxV, hxid⟩
    rw [contains_eq_true_iff] at hxid
    obtain ⟨a, haA, haid⟩ := List.mem_map.mp hxid
    have hax : a = x :=
      List.inj_on_of_nodup_map hV (hsub a haA) hxV haid
    rwa [hax] at haA
  · intro hxA
    exact ⟨hsub x hxA,
      (contains_eq_true_iff _ _).mpr (List.mem_map.mpr ⟨x, hxA, rfl⟩)⟩

/-- Loop invariant of the clustering pass over the visible list `V`: the
processed ids are duplicate-free and drawn from `V`; the stations assigned so
far (cluster members plus singletons) are, up to permutation, exactly the
stations of `V` whose id is processed; and no recorded cluster is empty. -/
structure ClusterInv (V : List Station) (st : ClusterState) : Prop where
  nodup : st.processed.Nodup
  sub : ∀ i ∈ st.processed, i ∈ V.map Station.id
  perm : List.Perm (clusterMembers st.clustered ++ st.singles)
    (V.filter (fun x => st.processed.contains x.id))
  cne : ∀ c ∈ st.clustered, c.stations ≠ []

/-- The step on an already-processed seed is the identity. -/
theorem clusterStep_of_processed (V : List Station) (cd : ℚ)
    (st : ClusterState) (s : Station)
    (hc : st.processed.contains s.id = true) :
    clusterStep V cd st s = st := by
  unfold clusterStep
  rw [if_pos hc]

/-- The step on a fresh seed with at least one neighbour records a cluster. -/
theorem clusterStep_of_cluster (V : List Station) (cd : ℚ)
    (st : ClusterState) (s : Station)
    (hc : ¬st.processed.contains s.id = true)
    (hlen : (nearbyOf V cd st.processed s).length > 0) :
    clusterStep V cd st s =
      { st with
        clustered := st.clustered ++ [mkCluster (s :: nearbyOf V cd st.processed s)],
        processed := st.processed ++ (s :: nearbyOf V cd st.processed s).map Station.id } := by
  unfold clusterStep
  rw [if_neg hc]
  simp only [if_pos hlen]

/-- The step on a fresh seed with no neighbours records a singleton. -/
theorem clusterStep_of_single (V : List Station) (cd : ℚ)
    (st : ClusterState) (s : Station)
    (hc : ¬st.processed.contains s.id = true)
    (hlen : ¬(nearbyOf V cd st.processed s).length > 0) :
    clusterStep V cd st s =
      { st with
        processed := st.processed ++ [s.id],
        singles := st.singles ++ [s] } := by
  unfold clusterStep
  rw [if_neg hc]
  simp only [if_neg hlen]

/-- Extending the invariant by a fresh batch `A` of stations (the new cluster
members, or the new singleton): the enlarged processed set stays
duplicate-free and drawn from `V`, and the enlarged member list matches the
filter by the enlarged processed set. -/
theorem clusterInv_extend (V : List Station) (st : ClusterState)
    (A : List Station)
    (hV : (V.map Station.id).Nodup) (h : ClusterInv V st)
    (hsub : ∀ a ∈ A, a ∈ V)
    (hA : (A.map Station.id).Nodup)
    (hfresh : ∀ a ∈ A, a.id ∉ st.processed) :
    (st.processed ++ A.map Station.id).Nodup ∧
    (∀ i ∈ st.processed ++ A.map Station.id, i ∈ V.map Station.id) ∧
    List.Perm (clusterMembers st.clustered ++ st.singles ++ A)
      (V.filter (fun x => (st.processed ++ A.map Station.id).contains x.id)) := by
  have hdisj : st.processed.Disjoint (A.map Station.id) := by
    intro i hip hiA
    obtain ⟨a, haA, haid⟩ := List.mem_map.mp hiA
    exact hfresh a haA (haid ▸ hip)
  refine ⟨h.nodup.append hA hdisj, ?_, ?_⟩
  · intro i hi
    rcases List.mem_append.mp hi with hip | hiA
    · exact h.sub i hip
    · obtain ⟨a, haA, haid⟩ := List.mem_map.mp hiA
      exact haid ▸ List.mem_map.mpr ⟨a, hsub a haA, rfl⟩
  · have hcongr : V.filter (fun x => (st.processed ++ A.map Station.id).contains x.id)
        = V.filter (fun x =>
            st.processed.contains x.id || (A.map Station.id).contains x.id) := by
      apply List.filter_congr
      intro x _
      simp
    rw [hcongr]
    have hor : List.Perm
        (V.filter (fun x =>
          st.processed.contains x.id || (A.map Station.id).contains x.id))
        (V.filter (fun x => st.processed.contains x.id) ++
          V.filter (fun x => (A.map Station.id).contains x.id)) := by
      apply filter_or_perm
      rintro x _ ⟨hxp, hxA⟩
      rw [contains_eq_true_iff] at hxp hxA
      exact hdisj hxp hxA
    exact (h.perm.append (filter_ids_perm V A hV hsub hA).symm).trans hor.symm

/-- Rotating the last two of three appended blocks is a permutation. -/
theorem append_rotate_perm {α : Type} (x y z : List α) :
    List.Perm ((x ++ y) ++ z) ((x ++ z) ++ y) := by
  rw [List.append_assoc, List.append_assoc]
  exact List.Perm.append_left x List.perm_append_comm

/-- The loop body preserves the invariant, leaves the seed's id processed,
and never removes processed ids. -/
theorem clusterStep_inv (V : List Station) (cd : ℚ) (st : ClusterState)
    (s : Station) (hV : (V.map Station.id).Nodup) (hs : s ∈ V)
    (h : ClusterInv V st) :
    ClusterInv V (clusterStep V cd st s) ∧
    s.id ∈ (clusterStep V cd st s).processed ∧
    (∀ i ∈ st.processed, i ∈ (clusterStep V cd st s).processed) := by
  by_cases hc : st.processed.contains s.id = true
  · rw [clusterStep_of_processed V cd st s hc]
    exact ⟨h, (contains_eq_true_iff _ _).mp hc, fun i hi => hi⟩
  · have hsid : s.id ∉ st.processed :=
      fun hm => hc ((contains_eq_true_iff _ _).mpr hm)
    by_cases hlen : (nearbyOf V cd st.processed s).length > 0
    · rw [clusterStep_of_cluster V cd st s hc hlen]
      have hnbV : ∀ o ∈ nearbyOf V cd st.processed s, o ∈ V :=
        fun o ho => (List.mem_filter.mp ho).1
      have hnbNear : ∀ o ∈ nearbyOf V cd st.processed s,
          isNearby st.processed s o cd = true :=
        fun o ho => (List.mem_filter.mp ho).2
      have hsubA : ∀ a ∈ s :: nearbyOf V cd st.processed s, a ∈ V := by
        intro a ha
        rcases List.mem_cons.mp ha with rfl | ha'
        · exact hs
        · exact hnbV a ha'
      have hAnodup : ((s :: nearbyOf V cd st.processed s).map Station.id).Nodup := by
        rw [List.map_cons]
        refine List.nodup_cons.mpr ⟨?_, ?_⟩
        · intro hmem
          obtain ⟨o, ho, hoid⟩ := List.mem_map.mp hmem
          exact (isNearby_facts (hnbNear o ho)).2 hoid
        · exact ((List.filter_sublist V).map Station.id).nodup hV
      have hfresh : ∀ a ∈ s :: nearbyOf V cd st.processed s,
          a.id ∉ st.processed := by
        intro a ha
        rcases List.mem_cons.mp ha with rfl | ha'
        · exact hsid
        · exact (isNearby_facts (hnbNear a ha')).1
      obtain ⟨hnd, hsub2, hperm⟩ :=
        clusterInv_extend V st (s :: nearbyOf V cd st.processed s) hV h
          hsubA hAnodup hfresh
      refine ⟨⟨hnd, hsub2, ?_, ?_⟩, ?_, ?_⟩
      · have hm : clusterMembers
            (st.clustered ++ [mkCluster (s :: nearbyOf V cd st.processed s)])
            = clusterMembers st.clustered ++ (s :: nearbyOf V cd st.processed s) := by
          simp [clusterMembers, mkCluster]
        show List.Perm (clusterMembers
            (st.clustered ++ [mkCluster (s :: nearbyOf V cd st.processed s)])
            ++ st.singles) _
        rw [hm]
        exact (append_rotate_perm _ _ _).trans hperm
      · intro c hcmem
        rcases List.mem_append.mp hcmem with hold | hnew
        · exact h.cne c hold
        · rw [List.mem_singleton.mp hnew]
          exact List.cons_ne_nil s _
      · exact List.mem_append_right _ (List.mem_cons_self _ _)
      · exact fun i hi => List.mem_append_left _ hi
    · rw [clusterStep_of_single V cd st s hc hlen]
      obtain ⟨hnd, hsub2, hperm⟩ :=
        clusterInv_extend V st [s] hV h
          (by intro a ha; rw [List.mem_singleton.mp ha]; exact hs)
          (List.nodup_singleton s.id)
          (by intro a ha; rw [List.mem_singleton.mp ha]; exact hsid)
      refine ⟨⟨hnd, hsub2, ?_, h.cne⟩, ?_, ?_⟩
      · show List.Perm (clusterMembers st.clustered ++ (st.singles ++ [s])) _
        rw [← List.append_assoc]
        exact hperm
      · exact List.mem_append_right _ (List.mem_singleton_self s.id)
      · exact fun i hi => List.mem_append_left _ hi

/-- Folding the loop body over any suffix of seeds drawn from `V` preserves
the invariant, ends with every seed's id processed, and keeps all previously
processed ids. -/
theorem foldl_clusterStep_inv (V : List Station) (cd : ℚ)
    (hV : (V.map Station.id).Nodup) :
    ∀ (l : List Station) (st : ClusterState),
      (∀ x ∈ l, x ∈ V) → ClusterInv V st →
      ClusterInv V (l.foldl (clusterStep V cd) st) ∧
      (∀ x ∈ l, x.id ∈ (l.foldl (clusterStep V cd) st).processed) ∧
      (∀ i ∈ st.processed, i ∈ (l.foldl (clusterStep V cd) st).processed)
  | [], st, _, h => ⟨h, by simp, fun _ hi => hi⟩
  | x :: l, st, hl, h => by
    have hstep := clusterStep_inv V cd st x hV (hl x (List.mem_cons_self x l)) h
    have ih := foldl_clusterStep_inv V cd hV l (clusterStep V cd st x)
      (fun y hy => hl y (List.mem_cons_of_mem x hy)) hstep.1
    rw [List.foldl_cons]
    refine ⟨ih.1, ?_, ?_⟩
    · intro y hy
      rcases List.mem_cons.mp hy with rfl | hy'
      · exact ih.2.2 y.id hstep.2.1
      · exact ih.2.1 y hy'
    · intro i hi
      exact ih.2.2 i (hstep.2.2 i hi)

/-- C1 (amended with the data-model id-uniqueness invariant): for every
station list whose ids are pairwise distinct and every zoom below 12, the
clustering pass partitions the stations: the assigned stations (cluster
members plus singletons) are a permutation of the input, each input station
occurs in the result exactly once, the total cluster membership plus the
singleton count equals the input length, and no returned cluster is empty. -/
theorem computeClusters_partition (S : List Station) (z : ℚ) (hz : z < 12)
    (hid : (S.map Station.id).Nodup) :
    List.Perm (partitionMembers (computeClusters S z)) S ∧
    (∀ s ∈ S, (partitionMembers (computeClusters S z)).count s = 1) ∧
    ((computeClusters S z).1.map (fun c => c.stations.length)).sum
        + (computeClusters S z).2.length = S.length ∧
    (∀ c ∈ (computeClusters S z).1, c.stations ≠ []) := by
  have hsc : shouldCluster z = true := decide_eq_true hz
  have h0 : ClusterInv S ⟨[], [], []⟩ := by
    refine ⟨List.nodup_nil, by simp, ?_, by simp⟩
    simp [clusterMembers]
  have hfold := foldl_clusterStep_inv S (clusterDistance z) hid S
    ⟨[], [], []⟩ (fun _ hx => hx) h0
  have hcc : computeClusters S z =
      ((S.foldl (clusterStep S (clusterDistance z)) ⟨[], [], []⟩).clustered,
        (S.foldl (clusterStep S (clusterDistance z)) ⟨[], [], []⟩).singles) := by
    simp [computeClusters, hsc]
  have hfilter : S.filter (fun x =>
      (S.foldl (clusterStep S (clusterDistance z)) ⟨[], [], []⟩).processed.contains
        x.id) = S :=
    List.filter_eq_self.mpr
      (fun x hx => (contains_eq_true_iff _ _).mpr (hfold.2.1 x hx))
  have hperm : List.Perm (partitionMembers (computeClusters S z)) S := by
    rw [hcc]
    have hp := hfold.1.perm
    rw [hfilter] at hp
    exact hp
  refine ⟨hperm, ?_, ?_, ?_⟩
  · intro s hs
    rw [hperm.count_eq]
    exact List.count_eq_one_of_mem (List.Nodup.of_map _ hid) hs
  · have hlen := hperm.length_eq
    rw [hcc] at hlen ⊢
    simpa [partitionMembers, clusterMembers, List.length_flatMap,
      List.length_append] using hlen
  · rw [hcc]
    exact hfold.1.cne

theorem computeClusters_partition_witness :
    (6 : ℚ) < 12 ∧
    (([parisStationA, parisStationB] : List Station).map Station.id).Nodup ∧
    (List.Perm
        (partitionMembers (computeClusters [parisStationA, parisStationB] 6))
        [parisStationA, parisStationB] ∧
      (∀ s ∈ ([parisStationA, parisStationB] : List Station),
        (partitionMembers (computeClusters [parisStationA, parisStationB] 6)).count s
          = 1) ∧
      ((computeClusters [parisStationA, parisStationB] 6).1.map
          (fun c => c.stations.length)).sum
          + (computeClusters [parisStationA, parisStationB] 6).2.length
          = ([parisStationA, parisStationB] : List Station).length ∧
      (∀ c ∈ (computeClusters [parisStationA, parisStationB] 6).1,
        c.stations ≠ [])) :=
  ⟨by norm_num, by simp [parisStationA, parisStationB],
    computeClusters_partition [parisStationA, parisStationB] 6 (by norm_num)
      (by simp [parisStationA, parisStationB])⟩

/-- The duplicated input for the counterexample to C1 as stated. -/
def dupStation : Station :=
  { id := "9", nom := "Dup", adresse := "", ville := "",
    lat := 0, lon := 0, prixGazole := some 1.7 }

/-- C1 counterexample: on the station list that repeats one station (so ids
are not pairwise distinct) at zoom 6 < 12, the pass assigns only one station:
total cluster membership plus singleton count is 1, not the input length 2,
so the claim quantified over every station list fails as stated. -/
theorem computeClusters_duplicate_id_cex :
    ((computeClusters [dupStation, dupStation] 6).1.map
        (fun c => c.stations.length)).sum
      + (computeClusters [dupStation, dupStation] 6).2.length
      ≠ ([dupStation, dupStation] : List Station).length := by
  have h : computeClusters [dupStation, dupStation] 6 = ([], [dupStation]) := by
    simp only [computeClusters, shouldCluster, clusterDistance, List.foldl,
      clusterStep, nearbyOf, mkCluster, isNearby, planarDistSq, List.filter,
      dupStation]
    norm_num
  rw [h]
  simp
